import Mathlib

/-!
Shallow embedding of `src/parser.hpp` (the hattip HTTP-0.9/1.0 message
parser and serializer) together with proofs about it.

Modelling conventions:
* a byte of the input stream is a `Nat` in `0..255`;
* `std::string` values (tokens, captured entity text) are `List Nat`;
* the `std::istream` source is the list of not-yet-consumed bytes;
* C++ exceptions become explicit error results (`PResult.err`);
* each `while` loop of the source takes a fuel argument; `PResult.fuelOut`
  means the loop did not finish within the given fuel, and a result of
  `PResult.fuelOut` for every fuel models non-termination;
* `int` values only ever receive `std::stoi` results of digit-run tokens,
  hence are non-negative and at most `INT_MAX = 2147483647`; they are
  modelled as `Nat` with the `INT_MAX` bound checked where `stoi` throws.

Platform note: the source reads with `char ch = input_.peek();` and compares
`ch == std::istream::traits_type::eof()`.  On the reference platform
(x86-64 Linux, where plain `char` is signed) the byte `0xFF = 255` stored in
a `char` has value `-1` and compares equal to the `eof` sentinel, so the
lexer treats a `0xFF` byte exactly like end-of-stream and never consumes it.
The embedding reproduces this.  For bytes `128..254` (negative as `char`,
distinct from `eof`) glibc's `isdigit`/`isalpha` return false, the
`std::set<char>` lookups fail, and `is_ctl`'s `0 <= ch` test fails, so such
bytes take the default single-character branch; the `Nat`-valued predicates
below agree with this.
-/

namespace hattip

/-- Special byte values used by the grammar (named for readability). -/
def SP : List Nat := [32]

/-- Token holding the single carriage-return byte. -/
def CR : List Nat := [13]

/-- Token holding the single line-feed byte. -/
def LF : List Nat := [10]

/-- Bytes of the literal `HTTP`. -/
def litHTTP : List Nat := [72, 84, 84, 80]

/-- Bytes of the literal `/`. -/
def litSlash : List Nat := [47]

/-- Bytes of the literal `.`. -/
def litDot : List Nat := [46]

/-- Bytes of the literal `:`. -/
def litColon : List Nat := [58]

/-- Bytes of the literal `"` (one double-quote byte). -/
def litQuote : List Nat := [34]

/-- Bytes of the literal `GET` (as emitted by `simple_request`'s serializer). -/
def litGET : List Nat := [71, 69, 84]

/-- Bytes of the 5-character C++ literal `"\"GET\""` (quote, G, E, T, quote)
against which `request::operator>>` compares the parsed method. -/
def litQuotedGET : List Nat := [34, 71, 69, 84, 34]

/-- `std::isdigit` on the ASCII digits `0`..`9` (bytes 48..57). -/
def is_digit_byte (b : Nat) : Bool := decide (48 ≤ b ∧ b ≤ 57)

/-- `std::isalpha` on the ASCII letters `A`..`Z` (65..90) and `a`..`z` (97..122). -/
def is_alpha_byte (b : Nat) : Bool :=
  decide ((65 ≤ b ∧ b ≤ 90) ∨ (97 ≤ b ∧ b ≤ 122))

/-- The `tspecials` set of the source, as byte values:
`( ) < > @ , ; : \ " / [ ] ? = { } SP HT`. -/
def tspecials : List Nat :=
  [40, 41, 60, 62, 64, 44, 59, 58, 92, 34, 47, 91, 93, 63, 61, 123, 125, 32, 9]

/-- `is_tspecial(char)`. -/
def is_tspecial_byte (b : Nat) : Bool := decide (b ∈ tspecials)

/-- `is_ctl(char)`: `(0 <= ch and ch <= 31) or (ch == 127)`.  Bytes 128..254
are negative as signed `char`, failing the `0 <= ch` test, and are not 127;
as `Nat` they equally fail `b ≤ 31 ∨ b = 127`. -/
def is_ctl_byte (b : Nat) : Bool := decide (b ≤ 31 ∨ b = 127)

/-- `is_tspecial(const std::string&)`: size one and that char is tspecial. -/
def is_tspecial_s : List Nat → Bool
  | [b] => is_tspecial_byte b
  | _ => false

/-- `is_ctl(const std::string&)`: size one and that char is a control char. -/
def is_ctl_s : List Nat → Bool
  | [b] => is_ctl_byte b
  | _ => false

/-- The `known_status_codes` set of the source. -/
def known_status_codes : List Nat :=
  [100, 101, 200, 201, 203, 204, 205, 206,
   300, 301, 302, 303, 304, 305,
   400, 401, 402, 403, 404, 405, 406, 407, 408, 409, 410, 411, 412,
   500, 501, 502, 503, 504]

/-- `is_known_status_code`. -/
def is_known_status_code (n : Nat) : Bool := decide (n ∈ known_status_codes)

/-- The digit-run scan of `lexer::next`: `while(std::isdigit(ch)) ...` —
takes the maximal leading run of digit bytes, returns `(run, rest)`. -/
def take_digit_run : List Nat → List Nat × List Nat
  | [] => ([], [])
  | b :: rest =>
    if is_digit_byte b = true then
      let p := take_digit_run rest
      (b :: p.1, p.2)
    else ([], b :: rest)

/-- The letter-run scan of `lexer::next`: `while(std::isalpha(ch)) ...`. -/
def take_alpha_run : List Nat → List Nat × List Nat
  | [] => ([], [])
  | b :: rest =>
    if is_alpha_byte b = true then
      let p := take_alpha_run rest
      (b :: p.1, p.2)
    else ([], b :: rest)

/-- The token scan of `lexer::next`, applied to the unread input: returns the
new buffered token and the remaining unread bytes.  The branch order follows
the source: eof check first (byte 255 is conflated with the `eof` sentinel,
see the platform note above, and is not consumed), then SP/CR/LF, then
tspecials, then a maximal digit run, then a maximal letter run, then a single
arbitrary byte. -/
def scanToken : List Nat → List Nat × List Nat
  | [] => ([], [])
  | b :: rest =>
    if b = 255 then ([], b :: rest)
    else if b = 32 ∨ b = 13 ∨ b = 10 then ([b], rest)
    else if is_tspecial_byte b = true then ([b], rest)
    else if is_digit_byte b = true then take_digit_run (b :: rest)
    else if is_alpha_byte b = true then take_alpha_run (b :: rest)
    else ([b], rest)

/-- The state of `lexer`: the buffered token `current_token_` and the unread
part of the input stream. -/
structure LexState where
  tok : List Nat
  rest : List Nat
deriving DecidableEq

/-- `lexer::next`'s effect on the state: scan the next token from the unread
input into the buffer (the previously buffered token is the one returned to
the caller, see `readString`). -/
def advance (st : LexState) : LexState :=
  let p := scanToken st.rest
  ⟨p.1, p.2⟩

/-- The `lexer` constructor: pre-fetches the first token so that `peek()` is
valid immediately. -/
def lexInit (input : List Nat) : LexState :=
  let p := scanToken input
  ⟨p.1, p.2⟩

/-- `lexer::operator>>(std::string&)`: yields the buffered token and advances. -/
def readString (st : LexState) : List Nat × LexState := (st.tok, advance st)

/-- The distinct failure exits of the parser (each `throw` site of the source):
`expected lit` is the "Expected ..." error of `lexer::operator>>(const char*)`;
`invalidNumber` is the exception thrown by `std::stoi`;
`unexpectedStatusCode` is "Unexpected status code number";
`emptyToken` is "token: Expected at least one CHAR";
`expectedQdtext` is "Expected qdtext";
`expectedGET` is the "Expected \"GET\"" throw of the Simple-Request branch of
`request::operator>>` (its message text coincides with the one `expect` would
produce for the literal `GET`, but it is a distinct throw site). -/
inductive ParseError where
  | expected (lit : List Nat)
  | invalidNumber
  | unexpectedStatusCode
  | emptyToken
  | expectedQdtext
  | expectedGET
deriving DecidableEq

/-- Result of running a parse rule: success with a value and the lexer state
after it, an aborting error (a C++ exception), or fuel exhaustion (the
modelled loop did not finish within the given fuel). -/
inductive PResult (α : Type) where
  | ok (a : α) (st : LexState)
  | err (e : ParseError)
  | fuelOut
deriving DecidableEq

/-- Sequencing of parse rules: errors and fuel exhaustion abort. -/
def PResult.bind {α β : Type} : PResult α → (α → LexState → PResult β) → PResult β
  | .ok a st, f => f a st
  | .err e, _ => .err e
  | .fuelOut, _ => .fuelOut

/-- `lexer::operator>>(const char*)`, kept as a state pair: on a match the
buffered token is consumed; on a mismatch the exception is raised and the
lexer (buffered token and unread input) is left untouched. -/
def expectP (lit : List Nat) (st : LexState) : Except ParseError Unit × LexState :=
  if st.tok = lit then (Except.ok (), advance st)
  else (Except.error (ParseError.expected lit), st)

/-- `expectP` packaged as a parse step. -/
def expect (lit : List Nat) (st : LexState) : PResult Unit :=
  match expectP lit st with
  | (Except.ok _, st') => PResult.ok () st'
  | (Except.error e, _) => PResult.err e

/-- Value of a digit string, most significant digit first
(the accumulation `std::stoi` performs on an all-digit token). -/
def digitsToNat (s : List Nat) : Nat :=
  s.foldl (fun acc b => 10 * acc + (b - 48)) 0

/-- `std::stoi` applied to a lexer token.  A lexer token never carries leading
whitespace or a sign, and is either all digits or starts with a non-digit, so
`stoi` succeeds exactly on non-empty all-digit tokens whose value fits in
`int` (otherwise it throws `invalid_argument` or `out_of_range`). -/
def stoi (s : List Nat) : Option Nat :=
  if s ≠ [] ∧ s.all is_digit_byte = true ∧ digitsToNat s ≤ 2147483647 then
    some (digitsToNat s)
  else none

/-- `lexer::operator>>(int&)`: read the buffered token, then convert with
`std::stoi`. -/
def readInt (st : LexState) : PResult Nat :=
  let p := readString st
  match stoi p.1 with
  | some n => PResult.ok n p.2
  | none => PResult.err ParseError.invalidNumber

/-- The loop of `token::operator>>`: slurp tokens while the buffered token is
neither a CTL nor a tspecial, concatenating. -/
def tokenLoop (fuel : Nat) (acc : List Nat) (st : LexState) : PResult (List Nat) :=
  match fuel with
  | 0 => PResult.fuelOut
  | f + 1 =>
    if is_ctl_s st.tok = false ∧ is_tspecial_s st.tok = false then
      let p := readString st
      tokenLoop f (acc ++ p.1) p.2
    else PResult.ok acc st

/-- `token::operator>>`: the loop above, then "token: Expected at least one
CHAR" if nothing was consumed. -/
def parseToken (fuel : Nat) (st : LexState) : PResult (List Nat) :=
  PResult.bind (tokenLoop fuel [] st) fun s st' =>
    if s = [] then PResult.err ParseError.emptyToken else PResult.ok s st'

/-- The scan loop of `is_lws`.  Faithful to the source slip: the condition
`s[i] != ' ' or s[i] != 9` holds for every byte (no byte equals both SP and
HT), so the loop returns false on any non-empty suffix. -/
def lws_loop : List Nat → Bool
  | [] => true
  | b :: rest => if b ≠ 32 ∨ b ≠ 9 then false else lws_loop rest

/-- `is_lws` from the source, slips preserved: the optional-CRLF skip tests
`s[i] == '\r' and s[i] == '\n'` — the same byte `s[0]` against both CR and
LF — so the skip never fires; then an empty remainder is rejected, and the
loop above rejects every non-empty remainder. -/
def is_lws (s : List Nat) : Bool :=
  let i : Nat :=
    if 2 ≤ s.length ∧ s.head? = some 13 ∧ s.head? = some 10 then 2 else 0
  if i = s.length then false else lws_loop (s.drop i)

/-- `is_qdtext`: LWS, or anything that is neither `"` nor a CTL. -/
def is_qdtext (s : List Nat) : Bool :=
  if is_lws s then true
  else if s = litQuote then false
  else if is_ctl_s s then false
  else true

/-- The interior loop of `quoted_string::operator>>`: until the closing `"`,
check `is_qdtext` on the buffered token ("Expected qdtext" on failure) and
concatenate it. -/
def qsLoop (fuel : Nat) (acc : List Nat) (st : LexState) : PResult (List Nat) :=
  match fuel with
  | 0 => PResult.fuelOut
  | f + 1 =>
    if st.tok ≠ litQuote then
      if is_qdtext st.tok = false then PResult.err ParseError.expectedQdtext
      else
        let p := readString st
        qsLoop f (acc ++ p.1) p.2
    else PResult.ok acc st

/-- `quoted_string::operator>>`: opening quote (also appended to the captured
text), interior loop, closing quote (appended as well). -/
def parseQuotedString (fuel : Nat) (st : LexState) : PResult (List Nat) :=
  PResult.bind (expect litQuote st) fun _ st1 =>
  PResult.bind (qsLoop fuel litQuote st1) fun s st2 =>
  PResult.bind (expect litQuote st2) fun _ st3 =>
  PResult.ok (s ++ litQuote) st3

/-- `method::operator>>`: a quoted string if the buffered token is `"`,
otherwise a generic token. -/
def parseMethod (fuel : Nat) (st : LexState) : PResult (List Nat) :=
  if st.tok = litQuote then parseQuotedString fuel st else parseToken fuel st

/-- `http_version`: major and minor as stored in the `int` fields. -/
structure http_version where
  major : Nat
  minor : Nat
deriving DecidableEq

/-- `http_version::operator>>`: literal `HTTP`, `/`, integer, `.`, integer. -/
def parseHttpVersion (st : LexState) : PResult http_version :=
  PResult.bind (expect litHTTP st) fun _ st1 =>
  PResult.bind (expect litSlash st1) fun _ st2 =>
  PResult.bind (readInt st2) fun major st3 =>
  PResult.bind (expect litDot st3) fun _ st4 =>
  PResult.bind (readInt st4) fun minor st5 =>
  PResult.ok ⟨major, minor⟩ st5

/-- `request_line`. -/
structure request_line where
  m : List Nat
  uri : List Nat
  version : http_version
deriving DecidableEq

/-- `http_header`. -/
structure http_header where
  name : List Nat
  value : List Nat
deriving DecidableEq

/-- `full_request`. -/
structure full_request where
  rl : request_line
  headers : List http_header
  body : List Nat
deriving DecidableEq

/-- `request`: the `std::variant<simple_request, full_request>` (a
`simple_request` carries only its `request_uri`). -/
inductive request where
  | simple (uri : List Nat)
  | full (fr : full_request)
deriving DecidableEq

/-- `status_line` (its `status_code` is the stored `int`). -/
structure status_line where
  version : http_version
  code : Nat
  reason : List Nat
deriving DecidableEq

/-- `full_response`. -/
structure full_response where
  sl : status_line
  headers : List http_header
  body : List Nat
deriving DecidableEq

/-- `message`: the `std::variant<full_response, request, simple_response>`
(a `simple_response` is just its entity body). -/
inductive message where
  | fullResponse (fr : full_response)
  | req (r : request)
  | simpleResponse (body : List Nat)
deriving DecidableEq

/-- The value loop of `http_header::operator>>`: concatenate tokens until the
buffered token is CR. -/
def headerValueLoop (fuel : Nat) (acc : List Nat) (st : LexState) : PResult (List Nat) :=
  match fuel with
  | 0 => PResult.fuelOut
  | f + 1 =>
    if st.tok ≠ CR then
      let p := readString st
      headerValueLoop f (acc ++ p.1) p.2
    else PResult.ok acc st

/-- `http_header::operator>>`: field-name (generic token), `:`, value up to
CR, then CRLF. -/
def parseHeader (fuel : Nat) (st : LexState) : PResult http_header :=
  PResult.bind (parseToken fuel st) fun name st1 =>
  PResult.bind (expect litColon st1) fun _ st2 =>
  PResult.bind (headerValueLoop fuel [] st2) fun v st3 =>
  PResult.bind (expect CR st3) fun _ st4 =>
  PResult.bind (expect LF st4) fun _ st5 =>
  PResult.ok ⟨name, v⟩ st5

/-- The loop of `http_headers::operator>>`: read headers until the buffered
token is CR. -/
def headersLoop (fuel : Nat) (acc : List http_header) (st : LexState) :
    PResult (List http_header) :=
  match fuel with
  | 0 => PResult.fuelOut
  | f + 1 =>
    if st.tok ≠ CR then
      PResult.bind (parseHeader f st) fun h st1 => headersLoop f (acc ++ [h]) st1
    else PResult.ok acc st

/-- `http_headers::operator>>`: the loop, then the terminating CRLF. -/
def parseHeaders (fuel : Nat) (st : LexState) : PResult (List http_header) :=
  PResult.bind (headersLoop fuel [] st) fun hs st1 =>
  PResult.bind (expect CR st1) fun _ st2 =>
  PResult.bind (expect LF st2) fun _ st3 =>
  PResult.ok hs st3

/-- The loop of `entity_body::operator>>`: concatenate tokens until the empty
(end-of-stream) token. -/
def entityLoop (fuel : Nat) (acc : List Nat) (st : LexState) : PResult (List Nat) :=
  match fuel with
  | 0 => PResult.fuelOut
  | f + 1 =>
    if st.tok ≠ [] then
      let p := readString st
      entityLoop f (acc ++ p.1) p.2
    else PResult.ok acc st

/-- `entity_body::operator>>`. -/
def parseEntityBody (fuel : Nat) (st : LexState) : PResult (List Nat) :=
  entityLoop fuel [] st

/-- The loop of `reason_phrase::operator>>`: concatenate tokens until CR or LF. -/
def reasonLoop (fuel : Nat) (acc : List Nat) (st : LexState) : PResult (List Nat) :=
  match fuel with
  | 0 => PResult.fuelOut
  | f + 1 =>
    if st.tok ≠ CR ∧ st.tok ≠ LF then
      let p := readString st
      reasonLoop f (acc ++ p.1) p.2
    else PResult.ok acc st

/-- `status_code::operator>>`: record the width of the buffered token, read it
as an integer, then require a known status code of source width exactly 3. -/
def parseStatusCode (st : LexState) : PResult Nat :=
  let numDigits := st.tok.length
  PResult.bind (readInt st) fun n st1 =>
  if is_known_status_code n = false ∨ numDigits ≠ 3 then
    PResult.err ParseError.unexpectedStatusCode
  else PResult.ok n st1

/-- `status_line::operator>>`: version SP status-code SP reason-phrase CRLF. -/
def parseStatusLine (fuel : Nat) (st : LexState) : PResult status_line :=
  PResult.bind (parseHttpVersion st) fun v st1 =>
  PResult.bind (expect SP st1) fun _ st2 =>
  PResult.bind (parseStatusCode st2) fun c st3 =>
  PResult.bind (expect SP st3) fun _ st4 =>
  PResult.bind (reasonLoop fuel [] st4) fun r st5 =>
  PResult.bind (expect CR st5) fun _ st6 =>
  PResult.bind (expect LF st6) fun _ st7 =>
  PResult.ok ⟨v, c, r⟩ st7

/-- `full_response::operator>>`: status-line, headers, entity body. -/
def parseFullResponse (fuel : Nat) (st : LexState) : PResult full_response :=
  PResult.bind (parseStatusLine fuel st) fun sl st1 =>
  PResult.bind (parseHeaders fuel st1) fun hs st2 =>
  PResult.bind (parseEntityBody fuel st2) fun b st3 =>
  PResult.ok ⟨sl, hs, b⟩ st3

/-- `request::operator>>`: the shared prefix `Method SP Request-URI SP`
(the URI is a single lexer token); then, if the buffered token is `HTTP`,
a Full-Request (version, headers, entity body), else CRLF and the
Simple-Request method check `m != "\"GET\""` (the 5-character literal with
quotes) which throws "Expected \"GET\"" on mismatch. -/
def parseRequest (fuel : Nat) (st : LexState) : PResult request :=
  PResult.bind (parseMethod fuel st) fun m st1 =>
  PResult.bind (expect SP st1) fun _ st2 =>
  let p := readString st2
  PResult.bind (expect SP p.2) fun _ st3 =>
  if st3.tok = litHTTP then
    PResult.bind (parseHttpVersion st3) fun v st4 =>
    PResult.bind (parseHeaders fuel st4) fun hs st5 =>
    PResult.bind (parseEntityBody fuel st5) fun b st6 =>
    PResult.ok (request.full ⟨⟨m, p.1, v⟩, hs, b⟩) st6
  else
    PResult.bind (expect CR st3) fun _ st4 =>
    PResult.bind (expect LF st4) fun _ st5 =>
    if m ≠ litQuotedGET then PResult.err ParseError.expectedGET
    else PResult.ok (request.simple p.1) st5

/-- `message::operator>>`: `HTTP` first token means Full-Response; a
non-empty first token means Request; the empty (end-of-stream) token means
Simple-Response (an entity body read to end-of-stream). -/
def parseMessage (fuel : Nat) (st : LexState) : PResult message :=
  if st.tok = litHTTP then
    PResult.bind (parseFullResponse fuel st) fun fr st1 =>
      PResult.ok (message.fullResponse fr) st1
  else if st.tok ≠ [] then
    PResult.bind (parseRequest fuel st) fun r st1 =>
      PResult.ok (message.req r) st1
  else
    PResult.bind (parseEntityBody fuel st) fun b st1 =>
      PResult.ok (message.simpleResponse b) st1

/-- Top-level parse of a byte stream: construct the lexer (pre-fetching the
first token) and read a `message`. -/
def parse_message (fuel : Nat) (input : List Nat) : PResult message :=
  parseMessage fuel (lexInit input)

/-- Decimal digit bytes of `n`, fuelled structurally (the fuel `n + 1` always
suffices); models what `operator<<` prints for a non-negative `int`. -/
def decBytesCore : Nat → Nat → List Nat
  | 0, _ => []
  | f + 1, n => if n < 10 then [48 + n] else decBytesCore f (n / 10) ++ [48 + n % 10]

/-- Decimal digit bytes emitted by `operator<<` for a non-negative `int`:
canonical decimal, no leading zeros. -/
def decBytes (n : Nat) : List Nat := decBytesCore (n + 1) n

/-- `http_version::operator<<`: `HTTP` `/` major `.` minor with the integers
re-printed in canonical decimal. -/
def serialize_http_version (v : http_version) : List Nat :=
  litHTTP ++ litSlash ++ decBytes v.major ++ litDot ++ decBytes v.minor

/-- `simple_request::operator<<`: `GET` SP uri CR LF (bare `GET`, single SP). -/
def serialize_simple_request (uri : List Nat) : List Nat :=
  litGET ++ SP ++ uri ++ CR ++ LF

/-- `request_line::operator<<`. -/
def serialize_request_line (rl : request_line) : List Nat :=
  rl.m ++ SP ++ rl.uri ++ SP ++ serialize_http_version rl.version ++ CR ++ LF

/-- `http_header::operator<<`. -/
def serialize_http_header (h : http_header) : List Nat :=
  h.name ++ litColon ++ h.value ++ CR ++ LF

/-- `http_headers::operator<<`: each header, then the blank-line CRLF. -/
def serialize_http_headers (hs : List http_header) : List Nat :=
  (hs.map serialize_http_header).flatten ++ CR ++ LF

/-- `full_request::operator<<`. -/
def serialize_full_request (fr : full_request) : List Nat :=
  serialize_request_line fr.rl ++ serialize_http_headers fr.headers ++ fr.body

/-- `request::operator<<` (the `std::visit`). -/
def serialize_request : request → List Nat
  | request.simple uri => serialize_simple_request uri
  | request.full fr => serialize_full_request fr

/-- `status_line::operator<<`. -/
def serialize_status_line (sl : status_line) : List Nat :=
  serialize_http_version sl.version ++ SP ++ decBytes sl.code ++ SP ++
    sl.reason ++ CR ++ LF

/-- `full_response::operator<<`. -/
def serialize_full_response (fr : full_response) : List Nat :=
  serialize_status_line fr.sl ++ serialize_http_headers fr.headers ++ fr.body

/-- `message::operator<<` (the `std::visit`). -/
def serialize_message : message → List Nat
  | message.fullResponse fr => serialize_full_response fr
  | message.req r => serialize_request r
  | message.simpleResponse b => b

end hattip

namespace hattip

/-! ### Helper lemmas -/

/-- The `is_lws` of the source returns false on every string: the loop
condition `s[i] != ' ' or s[i] != 9` holds for every byte. -/
theorem is_lws_always_false (s : List Nat) : is_lws s = false := by
  unfold is_lws
  have hskip : ¬(2 ≤ s.length ∧ s.head? = some 13 ∧ s.head? = some 10) := by
    rintro ⟨-, h13, h10⟩
    rw [h13] at h10
    exact absurd (Option.some.inj h10) (by decide)
  rw [if_neg hskip]
  cases s with
  | nil => rfl
  | cons b rest =>
    have hlen : ¬((0 : Nat) = (b :: rest).length) := by simp
    rw [if_neg hlen]
    show lws_loop (b :: rest) = false
    unfold lws_loop
    have hcond : b ≠ 32 ∨ b ≠ 9 := by
      by_cases hb : b = 32
      · right
        rw [hb]
        decide
      · left
        exact hb
    rw [if_pos hcond]

/-- The token-slurping loop of `token::operator>>` never terminates once the
lexer is at end of stream: the empty token is neither a CTL nor a tspecial,
so every iteration re-reads the empty token without progress. -/
theorem tokenLoop_stuck (fuel : Nat) (acc : List Nat) :
    tokenLoop fuel acc ⟨[], []⟩ = PResult.fuelOut := by
  induction fuel generalizing acc with
  | zero => rfl
  | succ f ih =>
    show tokenLoop (f + 1) acc ⟨[], []⟩ = PResult.fuelOut
    unfold tokenLoop
    rw [if_pos (by exact ⟨rfl, rfl⟩)]
    show tokenLoop f (acc ++ []) ⟨[], []⟩ = PResult.fuelOut
    rw [List.append_nil]
    exact ih acc

/-- `token::operator>>` runs out of any fuel when the lexer holds the single
letter `G` and the stream is exhausted. -/
theorem parseToken_G_diverges (fuel : Nat) :
    parseToken fuel ⟨[71], []⟩ = PResult.fuelOut := by
  cases fuel with
  | zero => rfl
  | succ f =>
    unfold parseToken tokenLoop
    rw [if_pos (by exact ⟨by decide, by decide⟩)]
    have : readString ⟨[71], []⟩ = ([71], ⟨[], []⟩) := by decide
    rw [this]
    show PResult.bind (tokenLoop f ([] ++ [71]) ⟨[], []⟩) _ = _
    rw [tokenLoop_stuck]
    rfl

end hattip

namespace hattip

/-- Value bound for a three-digit all-digit token. -/
theorem digitsToNat_le_999 (s : List Nat) (h3 : s.length = 3)
    (hd : s.all is_digit_byte = true) : digitsToNat s ≤ 999 := by
  match s, h3 with
  | [a, b, c], _ =>
    simp [is_digit_byte] at hd
    simp [digitsToNat]
    omega

/-! ### Claim theorems -/

/-- C1 (code_bug evidence): the round-trip law fails on the code.  The input
`"GET" x \r\n` (with a quoted method, the only form the Simple-Request branch
accepts, and the second SP that `request::operator>>` requires) parses
successfully to `Simple-Request(uri = "x")`, but the serializer emits the
8 bytes `GET x\r\n` — bare `GET` and a single SP — not the 10 input bytes. -/
theorem roundtrip_fails_on_simple_request :
    parse_message 16 [34, 71, 69, 84, 34, 32, 120, 32, 13, 10] =
      PResult.ok (message.req (request.simple [120])) ⟨[], []⟩ ∧
    serialize_message (message.req (request.simple [120])) =
      [71, 69, 84, 32, 120, 13, 10] ∧
    [71, 69, 84, 32, 120, 13, 10] ≠ [34, 71, 69, 84, 34, 32, 120, 32, 13, 10] :=
  ⟨by decide, by decide, by decide⟩

/-- C2 (code_bug evidence): the Simple-Request branch rejects the bare method
`GET`.  On `GET x \r\n` (bare GET, both SPs present, CRLF next) the parse
reaches the Simple-Request branch, consumes CRLF, and then throws
"Expected \"GET\"" because the method does not equal the 5-character literal
`"GET"` with quotes; and `GET /x\r\n` fails even earlier, at the second
`expect SP`, because the URI `/x` is two lexer tokens and the request shape
demands `Method SP URI SP`. -/
theorem simple_request_method_check_eval :
    parse_message 16 [71, 69, 84, 32, 120, 32, 13, 10] =
      PResult.err ParseError.expectedGET ∧
    parse_message 16 [71, 69, 84, 32, 47, 120, 13, 10] =
      PResult.err (ParseError.expected SP) :=
  ⟨by decide, by decide⟩

/-- C3 (code_bug evidence): parsing does not terminate on every finite byte
stream.  On the single-byte input `G`, the generic-token loop of
`token::operator>>` reaches end of stream, where the buffered token is the
empty string — which is neither a CTL nor a tspecial — so the loop re-reads
it forever: no amount of fuel makes the parse return a message or an error. -/
theorem parse_diverges_on_truncated_token (fuel : Nat) :
    parse_message fuel [71] = PResult.fuelOut := by
  have hlex : lexInit [71] = ⟨[71], []⟩ := by decide
  unfold parse_message
  rw [hlex]
  unfold parseMessage
  rw [if_neg (by decide), if_pos (by decide)]
  unfold parseRequest parseMethod
  rw [if_neg (by decide)]
  rw [parseToken_G_diverges]
  rfl

/-- C4 (code_bug evidence): linear white space is never accepted as qdtext.
`is_lws` returns false on every string (its CRLF test compares `s[0]` with
both CR and LF, and its loop condition `s[i] != ' ' or s[i] != 9` holds for
every byte), so the horizontal-tab token — a control character — fails
`is_qdtext`, and a Quoted-String containing a tab aborts with
"Expected qdtext". -/
theorem lws_qdtext_eval :
    (∀ s : List Nat, is_lws s = false) ∧
    is_qdtext [9] = false ∧
    parseQuotedString 8 (lexInit [34, 9, 34]) = PResult.err ParseError.expectedQdtext :=
  ⟨is_lws_always_false, by decide, by decide⟩

/-- C7: the empty byte stream parses (with any fuel at least 1 for the
entity-body loop's single test) to `Message::SimpleResponse` with an empty
entity body, consuming nothing. -/
theorem empty_stream_parses_to_simple_response (fuel : Nat) :
    parse_message (fuel + 1) [] = PResult.ok (message.simpleResponse []) ⟨[], []⟩ := by
  have hlex : lexInit [] = ⟨[], []⟩ := by decide
  unfold parse_message
  rw [hlex]
  unfold parseMessage
  rw [if_neg (by decide), if_neg (by decide)]
  unfold parseEntityBody entityLoop
  rw [if_neg (by decide)]
  rfl

/-- C8: parsing a generic Token (this includes a header field-name) at a
position where the buffered token is a single control character or a single
tspecial delimiter consumes nothing and fails with the `EmptyProduction`
error "token: Expected at least one CHAR". -/
theorem token_empty_production (fuel : Nat) (st : LexState)
    (h : is_ctl_s st.tok = true ∨ is_tspecial_s st.tok = true) :
    parseToken (fuel + 1) st = PResult.err ParseError.emptyToken := by
  unfold parseToken tokenLoop
  have hcond : ¬(is_ctl_s st.tok = false ∧ is_tspecial_s st.tok = false) := by
    rcases h with h | h <;> simp [h]
  rw [if_neg hcond]
  rfl

/-- Witness for `token_empty_production` at the tspecial token `:`. -/
theorem token_empty_production_witness :
    parseToken 1 ⟨[58], []⟩ = PResult.err ParseError.emptyToken :=
  token_empty_production 0 ⟨[58], []⟩ (Or.inr (by decide))

/-- C9: the literal-match step consumes the buffered token exactly when it
equals the literal; on a mismatch it produces the `UnexpectedToken` error and
leaves the lexer — buffered token and unread source — unchanged. -/
theorem expect_literal_spec (lit : List Nat) (st : LexState) :
    (st.tok = lit → expectP lit st = (Except.ok (), advance st)) ∧
    (st.tok ≠ lit → expectP lit st = (Except.error (ParseError.expected lit), st)) := by
  constructor
  · intro h
    unfold expectP
    rw [if_pos h]
  · intro h
    unfold expectP
    rw [if_neg h]

/-- Witness for `expect_literal_spec`: a match on `HTTP` consumes the token;
a mismatch on `GET` raises the error with the state untouched. -/
theorem expect_literal_spec_witness :
    expectP litHTTP ⟨[72, 84, 84, 80], [32]⟩ =
      (Except.ok (), advance ⟨[72, 84, 84, 80], [32]⟩) ∧
    expectP litHTTP ⟨[71, 69, 84], []⟩ =
      (Except.error (ParseError.expected litHTTP), ⟨[71, 69, 84], []⟩) :=
  ⟨(expect_literal_spec litHTTP ⟨[72, 84, 84, 80], [32]⟩).1 (by decide),
   (expect_literal_spec litHTTP ⟨[71, 69, 84], []⟩).2 (by decide)⟩

/-- C5 counterexample: the claim says every failing Status-Code parse fails
with `InvalidStatusCode`, but on the (three-character, non-digit) token `ABC`
the failure is `std::stoi`'s exception — `InvalidNumber` — which is a
different error. -/
theorem status_code_error_kind_cex :
    parseStatusCode ⟨[65, 66, 67], []⟩ = PResult.err ParseError.invalidNumber ∧
    ParseError.invalidNumber ≠ ParseError.unexpectedStatusCode :=
  ⟨by decide, by decide⟩

end hattip

namespace hattip

/-- C5 amended: a Status-Code parse succeeds exactly when the buffered token
is three characters long, all digits, with value in the known-status-code
set; otherwise it fails — with `InvalidStatusCode` ("Unexpected status code
number") when the token is a non-empty digit run whose value fits in `int`,
and with `InvalidNumber` (the `std::stoi` exception) when it is not. -/
theorem status_code_success_iff (st : LexState) :
    ((∃ n st', parseStatusCode st = PResult.ok n st') ↔
      (st.tok.length = 3 ∧ st.tok.all is_digit_byte = true ∧
       is_known_status_code (digitsToNat st.tok) = true)) ∧
    ((st.tok ≠ [] ∧ st.tok.all is_digit_byte = true ∧ digitsToNat st.tok ≤ 2147483647 ∧
       ¬(st.tok.length = 3 ∧ is_known_status_code (digitsToNat st.tok) = true)) →
      parseStatusCode st = PResult.err ParseError.unexpectedStatusCode) ∧
    (¬(st.tok ≠ [] ∧ st.tok.all is_digit_byte = true ∧ digitsToNat st.tok ≤ 2147483647) →
      parseStatusCode st = PResult.err ParseError.invalidNumber) := by
  have hbase : parseStatusCode st =
      PResult.bind (readInt st) fun n st1 =>
        if is_known_status_code n = false ∨ st.tok.length ≠ 3 then
          PResult.err ParseError.unexpectedStatusCode
        else PResult.ok n st1 := rfl
  by_cases hs : st.tok ≠ [] ∧ st.tok.all is_digit_byte = true ∧ digitsToNat st.tok ≤ 2147483647
  · have hread : readInt st = PResult.ok (digitsToNat st.tok) (advance st) := by
      simp only [readInt, readString, stoi]
      rw [if_pos hs]
    refine ⟨⟨?_, ?_⟩, ?_, ?_⟩
    · rintro ⟨n, st', hok⟩
      rw [hbase, hread] at hok
      show _ ∧ _ ∧ _
      by_cases hcond : is_known_status_code (digitsToNat st.tok) = false ∨ st.tok.length ≠ 3
      · rw [show PResult.bind (PResult.ok (digitsToNat st.tok) (advance st))
            (fun n st1 => if is_known_status_code n = false ∨ st.tok.length ≠ 3 then
              PResult.err ParseError.unexpectedStatusCode else PResult.ok n st1) =
            if is_known_status_code (digitsToNat st.tok) = false ∨ st.tok.length ≠ 3 then
              PResult.err ParseError.unexpectedStatusCode
            else PResult.ok (digitsToNat st.tok) (advance st) from rfl,
          if_pos hcond] at hok
        exact absurd hok (by simp)
      · push_neg at hcond
        obtain ⟨hknown, hlen⟩ := hcond
        exact ⟨hlen, hs.2.1, by simpa using hknown⟩
    · rintro ⟨hlen, hdig, hknown⟩
      refine ⟨digitsToNat st.tok, advance st, ?_⟩
      rw [hbase, hread]
      show (if is_known_status_code (digitsToNat st.tok) = false ∨ st.tok.length ≠ 3 then
          PResult.err ParseError.unexpectedStatusCode
        else PResult.ok (digitsToNat st.tok) (advance st)) = _
      rw [if_neg (by simp [hknown, hlen])]
    · rintro ⟨-, -, -, hnot⟩
      rw [hbase, hread]
      show (if is_known_status_code (digitsToNat st.tok) = false ∨ st.tok.length ≠ 3 then
          PResult.err ParseError.unexpectedStatusCode
        else PResult.ok (digitsToNat st.tok) (advance st)) = _
      rw [if_pos ?_]
      by_cases hk : is_known_status_code (digitsToNat st.tok) = true
      · by_cases hl : st.tok.length = 3
        · exact absurd ⟨hl, hk⟩ hnot
        · exact Or.inr hl
      · exact Or.inl (by simpa using hk)
    · intro hcontra
      exact absurd hs hcontra
  · have hread : readInt st = PResult.err ParseError.invalidNumber := by
      simp only [readInt, readString, stoi]
      rw [if_neg hs]
    refine ⟨⟨?_, ?_⟩, ?_, ?_⟩
    · rintro ⟨n, st', hok⟩
      rw [hbase, hread] at hok
      exact absurd hok (by simp [PResult.bind])
    · rintro ⟨hlen, hdig, hknown⟩
      have hle : digitsToNat st.tok ≤ 999 := digitsToNat_le_999 st.tok hlen hdig
      have : st.tok ≠ [] := by
        intro he
        rw [he] at hlen
        exact absurd hlen (by decide)
      exact absurd ⟨this, hdig, by omega⟩ hs
    · rintro ⟨hne, hdig, hle, -⟩
      exact absurd ⟨hne, hdig, hle⟩ hs
    · intro _
      rw [hbase, hread]
      rfl

/-- Witness for `status_code_success_iff`: token `200` succeeds; tokens `999`
and `20` fail with the status-code error; token `ABC` fails with the stoi
error. -/
theorem status_code_success_iff_witness :
    (∃ n st', parseStatusCode ⟨[50, 48, 48], [32]⟩ = PResult.ok n st') ∧
    parseStatusCode ⟨[57, 57, 57], []⟩ = PResult.err ParseError.unexpectedStatusCode ∧
    parseStatusCode ⟨[50, 48], []⟩ = PResult.err ParseError.unexpectedStatusCode ∧
    parseStatusCode ⟨[65, 66, 67], [32]⟩ = PResult.err ParseError.invalidNumber :=
  ⟨(status_code_success_iff ⟨[50, 48, 48], [32]⟩).1.mpr (by decide),
   (status_code_success_iff ⟨[57, 57, 57], []⟩).2.1 (by decide),
   (status_code_success_iff ⟨[50, 48], []⟩).2.1 (by decide),
   (status_code_success_iff ⟨[65, 66, 67], [32]⟩).2.2 (by decide)⟩

end hattip

namespace hattip

/-- The digit-run scan is the maximal leading digit run. -/
theorem take_digit_run_eq (l : List Nat) :
    take_digit_run l = (l.takeWhile is_digit_byte, l.dropWhile is_digit_byte) := by
  induction l with
  | nil => rfl
  | cons b rest ih =>
    by_cases h : is_digit_byte b = true
    · simp [take_digit_run, List.takeWhile_cons, List.dropWhile_cons, h, ih]
    · simp [take_digit_run, List.takeWhile_cons, List.dropWhile_cons, h]

/-- The letter-run scan is the maximal leading letter run. -/
theorem take_alpha_run_eq (l : List Nat) :
    take_alpha_run l = (l.takeWhile is_alpha_byte, l.dropWhile is_alpha_byte) := by
  induction l with
  | nil => rfl
  | cons b rest ih =>
    by_cases h : is_alpha_byte b = true
    · simp [take_alpha_run, List.takeWhile_cons, List.dropWhile_cons, h, ih]
    · simp [take_alpha_run, List.takeWhile_cons, List.dropWhile_cons, h]

/-- A digit byte reaches the digit-run branch: it is not the eof-conflated
byte 255, not SP/CR/LF, and not a tspecial. -/
theorem digit_byte_no_clash (b : Nat) (h : is_digit_byte b = true) :
    b ≠ 255 ∧ ¬(b = 32 ∨ b = 13 ∨ b = 10) ∧ is_tspecial_byte b = false := by
  simp only [is_digit_byte, decide_eq_true_eq] at h
  refine ⟨by omega, by omega, ?_⟩
  simp only [is_tspecial_byte, tspecials, decide_eq_false_iff_not]
  intro hmem
  simp only [List.mem_cons, List.not_mem_nil, or_false] at hmem
  omega

/-- A letter byte reaches the letter-run branch. -/
theorem alpha_byte_no_clash (b : Nat) (h : is_alpha_byte b = true) :
    b ≠ 255 ∧ ¬(b = 32 ∨ b = 13 ∨ b = 10) ∧ is_tspecial_byte b = false ∧
      is_digit_byte b = false := by
  simp only [is_alpha_byte, decide_eq_true_eq] at h
  refine ⟨by omega, by omega, ?_, by simp only [is_digit_byte, decide_eq_false_iff_not]; omega⟩
  simp only [is_tspecial_byte, tspecials, decide_eq_false_iff_not]
  intro hmem
  simp only [List.mem_cons, List.not_mem_nil, or_false] at hmem
  omega

/-- C6 counterexample: on the one-byte input `0xFF` the claim calls for the
single-byte token `[255]` with the byte consumed, but the lexer produces the
empty (end-of-stream) token and consumes nothing: as a signed `char`, byte
255 equals the `eof` sentinel of `std::istream`. -/
theorem lexer_byte_255_cex :
    scanToken [255] ≠ ([255], []) ∧ scanToken [255] = ([], [255]) :=
  ⟨by decide, by decide⟩

/-- C6 amended: the tokenizer's classification is exactly as claimed for
end-of-stream and for every first byte other than 255 — SP/CR/LF and
tspecials give single-byte tokens, digits and letters give maximal runs,
anything else a single byte, and precisely the token's bytes are consumed —
but the byte 255 is conflated with the eof sentinel: it produces the empty
token and is never consumed. -/
theorem lexer_next_token_spec (b : Nat) (rest input : List Nat) :
    ((scanToken input).1 ++ (scanToken input).2 = input) ∧
    scanToken [] = ([], []) ∧
    (b = 255 → scanToken (b :: rest) = ([], b :: rest)) ∧
    (b = 32 ∨ b = 13 ∨ b = 10 → scanToken (b :: rest) = ([b], rest)) ∧
    (¬(b = 32 ∨ b = 13 ∨ b = 10) → is_tspecial_byte b = true →
      scanToken (b :: rest) = ([b], rest)) ∧
    (is_digit_byte b = true →
      scanToken (b :: rest) =
        ((b :: rest).takeWhile is_digit_byte, (b :: rest).dropWhile is_digit_byte)) ∧
    (is_alpha_byte b = true →
      scanToken (b :: rest) =
        ((b :: rest).takeWhile is_alpha_byte, (b :: rest).dropWhile is_alpha_byte)) ∧
    (b ≠ 255 → ¬(b = 32 ∨ b = 13 ∨ b = 10) → is_tspecial_byte b = false →
      is_digit_byte b = false → is_alpha_byte b = false →
      scanToken (b :: rest) = ([b], rest)) := by
  refine ⟨?_, rfl, ?_, ?_, ?_, ?_, ?_, ?_⟩
  · cases input with
    | nil => rfl
    | cons c cs =>
      simp only [scanToken]
      by_cases h1 : c = 255
      · rw [if_pos h1]
        rfl
      · rw [if_neg h1]
        by_cases h2 : c = 32 ∨ c = 13 ∨ c = 10
        · rw [if_pos h2]
          rfl
        · rw [if_neg h2]
          by_cases h3 : is_tspecial_byte c = true
          · rw [if_pos h3]
            rfl
          · rw [if_neg h3]
            by_cases h4 : is_digit_byte c = true
            · rw [if_pos h4, take_digit_run_eq]
              exact List.takeWhile_append_dropWhile is_digit_byte (c :: cs)
            · rw [if_neg h4]
              by_cases h5 : is_alpha_byte c = true
              · rw [if_pos h5, take_alpha_run_eq]
                exact List.takeWhile_append_dropWhile is_alpha_byte (c :: cs)
              · rw [if_neg h5]
                rfl
  · intro h
    simp only [scanToken]
    rw [if_pos h]
  · intro h
    have h255 : b ≠ 255 := by
      rcases h with h | h | h <;> rw [h] <;> decide
    simp only [scanToken]
    rw [if_neg h255, if_pos h]
  · intro hws ht
    have h255 : b ≠ 255 := by
      intro he
      rw [he] at ht
      exact absurd ht (by decide)
    simp only [scanToken]
    rw [if_neg h255, if_neg hws, if_pos ht]
  · intro hd
    obtain ⟨h255, hws, ht⟩ := digit_byte_no_clash b hd
    simp only [scanToken]
    rw [if_neg h255, if_neg hws, if_neg (by simp [ht]), if_pos hd, take_digit_run_eq]
  · intro ha
    obtain ⟨h255, hws, ht, hd⟩ := alpha_byte_no_clash b ha
    simp only [scanToken]
    rw [if_neg h255, if_neg hws, if_neg (by simp [ht]), if_neg (by simp [hd]),
      if_pos ha, take_alpha_run_eq]
  · intro h255 hws ht hd ha
    simp only [scanToken]
    rw [if_neg h255, if_neg hws, if_neg (by simp [ht]), if_neg (by simp [hd]),
      if_neg (by simp [ha])]

end hattip

namespace hattip

/-- Witness for `lexer_next_token_spec`: one concrete instance of each
classification rule (eof-conflated 255, SP, tspecial `:`, digit run `12`,
letter run `hi`, and the default byte `*`). -/
theorem lexer_next_token_spec_witness :
    scanToken [255] = ([], [255]) ∧
    scanToken [32, 71] = ([32], [71]) ∧
    scanToken [58, 71] = ([58], [71]) ∧
    scanToken [49, 50, 97] = ([49, 50], [97]) ∧
    scanToken [104, 105, 49] = ([104, 105], [49]) ∧
    scanToken [42, 71] = ([42], [71]) := by
  refine ⟨?_, ?_, ?_, ?_, ?_, ?_⟩
  · exact (lexer_next_token_spec 255 [] []).2.2.1 rfl
  · exact (lexer_next_token_spec 32 [71] []).2.2.2.1 (by decide)
  · exact (lexer_next_token_spec 58 [71] []).2.2.2.2.1 (by decide) (by decide)
  · have h := (lexer_next_token_spec 49 [50, 97] []).2.2.2.2.2.1 (by decide)
    rw [h]
    decide
  · have h := (lexer_next_token_spec 104 [105, 49] []).2.2.2.2.2.2.1 (by decide)
    rw [h]
    decide
  · exact (lexer_next_token_spec 42 [71] []).2.2.2.2.2.2.2 (by decide) (by decide)
      (by decide) (by decide) (by decide)

end hattip

namespace hattip

/-- Splitting a list that starts with a maximal `p`-run: `takeWhile` keeps
exactly the run and `dropWhile` exactly the tail. -/
theorem run_takeWhile (p : Nat → Bool) (A rest : List Nat) (hA : A.all p = true)
    (hrest : rest.takeWhile p = []) :
    (A ++ rest).takeWhile p = A ∧ (A ++ rest).dropWhile p = rest := by
  induction A with
  | nil =>
    refine ⟨by simpa using hrest, ?_⟩
    cases rest with
    | nil => rfl
    | cons c cs =>
      by_cases hc : p c = true
      · rw [List.takeWhile_cons, if_pos hc] at hrest
        exact absurd hrest (by simp)
      · simp only [List.nil_append, List.dropWhile_cons]
        rw [if_neg (by simp [hc])]
  | cons a A' ih =>
    rw [List.all_cons, Bool.and_eq_true] at hA
    obtain ⟨ha, hA'⟩ := hA
    obtain ⟨h1, h2⟩ := ih hA'
    constructor
    · rw [List.cons_append, List.takeWhile_cons, if_pos (by simp [ha]), h1]
    · rw [List.cons_append, List.dropWhile_cons, if_pos (by simp [ha]), h2]

/-- `takeWhile` of a list whose head fails the predicate. -/
theorem takeWhile_cons_false (p : Nat → Bool) (c : Nat) (l : List Nat)
    (h : p c = false) : List.takeWhile p (c :: l) = [] := by
  simp [List.takeWhile_cons, h]

/-- The lexer takes a maximal digit run when the input starts with a digit
and the tail after the run does not continue it. -/
theorem scanToken_digit_run (a : Nat) (A rest : List Nat)
    (ha : is_digit_byte a = true) (hA : A.all is_digit_byte = true)
    (hrest : rest.takeWhile is_digit_byte = []) :
    scanToken (a :: (A ++ rest)) = (a :: A, rest) := by
  obtain ⟨h255, hws, ht⟩ := digit_byte_no_clash a ha
  simp only [scanToken]
  rw [if_neg h255, if_neg hws, if_neg (by simp [ht]), if_pos ha, take_digit_run_eq]
  have hall : (a :: A).all is_digit_byte = true := by
    rw [List.all_cons, Bool.and_eq_true]
    exact ⟨ha, hA⟩
  have h := run_takeWhile is_digit_byte (a :: A) rest hall hrest
  rw [List.cons_append] at h
  rw [h.1, h.2]

/-- The lexer takes a maximal letter run when the input starts with a letter
and the tail after the run does not continue it. -/
theorem scanToken_alpha_run (a : Nat) (A rest : List Nat)
    (ha : is_alpha_byte a = true) (hA : A.all is_alpha_byte = true)
    (hrest : rest.takeWhile is_alpha_byte = []) :
    scanToken (a :: (A ++ rest)) = (a :: A, rest) := by
  obtain ⟨h255, hws, ht, hd⟩ := alpha_byte_no_clash a ha
  simp only [scanToken]
  rw [if_neg h255, if_neg hws, if_neg (by simp [ht]), if_neg (by simp [hd]),
    if_pos ha, take_alpha_run_eq]
  have hall : (a :: A).all is_alpha_byte = true := by
    rw [List.all_cons, Bool.and_eq_true]
    exact ⟨ha, hA⟩
  have h := run_takeWhile is_alpha_byte (a :: A) rest hall hrest
  rw [List.cons_append] at h
  rw [h.1, h.2]

/-- The lexer on a `/` byte: a single tspecial token. -/
theorem scanToken_slash (X : List Nat) : scanToken (47 :: X) = ([47], X) := by
  simp only [scanToken]
  rw [if_neg (by decide), if_neg (by decide), if_pos (by decide)]

/-- The lexer on a `.` byte: the default single-character branch. -/
theorem scanToken_dot (X : List Nat) : scanToken (46 :: X) = ([46], X) := by
  simp only [scanToken]
  rw [if_neg (by decide), if_neg (by decide), if_neg (by decide), if_neg (by decide),
    if_neg (by decide)]

/-- A matching `expect` consumes the buffered token. -/
theorem expect_ok (lit : List Nat) (st : LexState) (h : st.tok = lit) :
    expect lit st = PResult.ok () (advance st) := by
  simp [expect, expectP, h]

/-- `lexer::operator>>(int&)` on a non-empty digit-run token within `int`
range yields its value. -/
theorem readInt_ok (st : LexState)
    (h : st.tok ≠ [] ∧ st.tok.all is_digit_byte = true ∧ digitsToNat st.tok ≤ 2147483647) :
    readInt st = PResult.ok (digitsToNat st.tok) (advance st) := by
  simp only [readInt, readString, stoi]
  rw [if_pos h]

/-- Value of a digit list extended by one digit byte. -/
theorem digitsToNat_append (xs : List Nat) (d : Nat) :
    digitsToNat (xs ++ [d]) = 10 * digitsToNat xs + (d - 48) := by
  simp [digitsToNat, List.foldl_append]

/-- The decimal printer emits only digits, no leading zero (for positive
values), and its digits read back to the printed value. -/
theorem decBytesCore_spec (f : Nat) : ∀ n : Nat, n < f →
    (decBytesCore f n).all is_digit_byte = true ∧
    digitsToNat (decBytesCore f n) = n ∧
    (1 ≤ n → (decBytesCore f n).head? ≠ some 48) ∧
    decBytesCore f n ≠ [] := by
  induction f with
  | zero =>
    intro n hn
    omega
  | succ f ih =>
    intro n hn
    by_cases h10 : n < 10
    · simp only [decBytesCore, if_pos h10]
      refine ⟨?_, ?_, ?_, by simp⟩
      · simp only [List.all_cons, List.all_nil, Bool.and_eq_true, is_digit_byte,
          decide_eq_true_eq, and_true]
        omega
      · simp [digitsToNat]
      · intro h1
        simp only [List.head?_cons, ne_eq, Option.some.injEq]
        omega
    · obtain ⟨hall, hval, hhead, hne⟩ := ih (n / 10) (by omega)
      simp only [decBytesCore, if_neg h10]
      refine ⟨?_, ?_, ?_, by simp⟩
      · rw [List.all_append, Bool.and_eq_true]
        refine ⟨hall, ?_⟩
        simp only [List.all_cons, List.all_nil, Bool.and_eq_true, is_digit_byte,
          decide_eq_true_eq, and_true]
        omega
      · rw [digitsToNat_append, hval]
        omega
      · intro _
        cases hcore : decBytesCore f (n / 10) with
        | nil => exact absurd hcore hne
        | cons d ds =>
          have hh := hhead (by omega)
          rw [hcore] at hh
          simpa using hh

end hattip

namespace hattip

/-- C10: the Http-Version parser accepts any digit-run tokens for major and
minor — including runs with leading zeros — storing only their integer
values, and the serializer re-prints those integers in canonical decimal
(digit bytes only, value-faithful, no leading zero for positive values);
hence the distinct source texts `HTTP/01.0` and `HTTP/1.0` parse to the same
`http_version` value, which serializes to `HTTP/1.0`. -/
theorem http_version_parse_serialize (A B : List Nat)
    (hA : A ≠ [] ∧ A.all is_digit_byte = true ∧ digitsToNat A ≤ 2147483647)
    (hB : B ≠ [] ∧ B.all is_digit_byte = true ∧ digitsToNat B ≤ 2147483647) :
    parseHttpVersion (lexInit (litHTTP ++ litSlash ++ A ++ litDot ++ B)) =
      PResult.ok ⟨digitsToNat A, digitsToNat B⟩ ⟨[], []⟩ ∧
    (∀ n : Nat, (decBytes n).all is_digit_byte = true ∧
      digitsToNat (decBytes n) = n ∧ (1 ≤ n → (decBytes n).head? ≠ some 48)) ∧
    (litHTTP ++ litSlash ++ [48, 49] ++ litDot ++ [48] ≠
       litHTTP ++ litSlash ++ [49] ++ litDot ++ [48] ∧
     parseHttpVersion (lexInit (litHTTP ++ litSlash ++ [48, 49] ++ litDot ++ [48])) =
       PResult.ok ⟨1, 0⟩ ⟨[], []⟩ ∧
     parseHttpVersion (lexInit (litHTTP ++ litSlash ++ [49] ++ litDot ++ [48])) =
       PResult.ok ⟨1, 0⟩ ⟨[], []⟩ ∧
     serialize_http_version ⟨1, 0⟩ = litHTTP ++ litSlash ++ [49] ++ litDot ++ [48]) := by
  refine ⟨?_, ?_, by decide, by decide, by decide, by decide⟩
  · obtain ⟨hAne, hAdig, hAle⟩ := hA
    obtain ⟨hBne, hBdig, hBle⟩ := hB
    obtain ⟨a, A', rfl⟩ := List.exists_cons_of_ne_nil hAne
    obtain ⟨b0, B', rfl⟩ := List.exists_cons_of_ne_nil hBne
    rw [List.all_cons, Bool.and_eq_true] at hAdig
    obtain ⟨ha, hA'⟩ := hAdig
    rw [List.all_cons, Bool.and_eq_true] at hBdig
    obtain ⟨hb, hB'⟩ := hBdig
    have hinput : litHTTP ++ litSlash ++ (a :: A') ++ litDot ++ (b0 :: B') =
        72 :: ([84, 84, 80] ++ (47 :: (a :: (A' ++ 46 :: b0 :: B')))) := by
      simp [litHTTP, litSlash, litDot]
    have hscan0 : scanToken (litHTTP ++ litSlash ++ (a :: A') ++ litDot ++ (b0 :: B')) =
        ([72, 84, 84, 80], 47 :: (a :: (A' ++ 46 :: b0 :: B'))) := by
      rw [hinput]
      exact scanToken_alpha_run 72 [84, 84, 80] (47 :: (a :: (A' ++ 46 :: b0 :: B')))
        (by decide) (by decide)
        (takeWhile_cons_false is_alpha_byte 47 _ (by decide))
    have e0 : lexInit (litHTTP ++ litSlash ++ (a :: A') ++ litDot ++ (b0 :: B')) =
        ⟨litHTTP, 47 :: (a :: (A' ++ 46 :: b0 :: B'))⟩ := by
      unfold lexInit
      rw [hscan0]
      rfl
    rw [e0]
    unfold parseHttpVersion
    rw [expect_ok litHTTP _ rfl]
    have e1 : advance ⟨litHTTP, 47 :: (a :: (A' ++ 46 :: b0 :: B'))⟩ =
        ⟨[47], a :: (A' ++ 46 :: b0 :: B')⟩ := by
      unfold advance
      rw [scanToken_slash]
    simp only [PResult.bind]
    rw [e1, expect_ok litSlash _ rfl]
    have e2 : advance ⟨[47], a :: (A' ++ 46 :: b0 :: B')⟩ = ⟨a :: A', 46 :: b0 :: B'⟩ := by
      unfold advance
      rw [scanToken_digit_run a A' (46 :: b0 :: B') ha hA'
        (takeWhile_cons_false is_digit_byte 46 _ (by decide))]
    simp only [PResult.bind]
    rw [e2, readInt_ok _ ⟨by simp, by rw [List.all_cons, Bool.and_eq_true]; exact ⟨ha, hA'⟩, hAle⟩]
    have e3 : advance ⟨a :: A', 46 :: b0 :: B'⟩ = ⟨[46], b0 :: B'⟩ := by
      unfold advance
      rw [scanToken_dot]
    simp only [PResult.bind]
    rw [e3, expect_ok litDot _ rfl]
    have e4 : advance ⟨[46], b0 :: B'⟩ = ⟨b0 :: B', []⟩ := by
      unfold advance
      have h := scanToken_digit_run b0 B' [] hb hB' rfl
      rw [List.append_nil] at h
      rw [h]
    simp only [PResult.bind]
    rw [e4, readInt_ok _ ⟨by simp, by rw [List.all_cons, Bool.and_eq_true]; exact ⟨hb, hB'⟩, hBle⟩]
    simp only [PResult.bind]
    rfl
  · intro n
    obtain ⟨h1, h2, h3, -⟩ := decBytesCore_spec (n + 1) n (Nat.lt_succ_self n)
    exact ⟨h1, h2, h3⟩

/-- Witness for `http_version_parse_serialize` at the leading-zero source
text `HTTP/01.0`. -/
theorem http_version_parse_serialize_witness :
    parseHttpVersion (lexInit (litHTTP ++ litSlash ++ [48, 49] ++ litDot ++ [48])) =
      PResult.ok ⟨1, 0⟩ ⟨[], []⟩ :=
  (http_version_parse_serialize [48, 49] [48] (by decide) (by decide)).1

end hattip

namespace hattip

/-- Witness for `parse_diverges_on_truncated_token` at a concrete fuel. -/
theorem parse_diverges_on_truncated_token_witness :
    parse_message 1000 [71] = PResult.fuelOut :=
  parse_diverges_on_truncated_token 1000

/-- Witness for `empty_stream_parses_to_simple_response` at a concrete fuel. -/
theorem empty_stream_parses_to_simple_response_witness :
    parse_message 8 [] = PResult.ok (message.simpleResponse []) ⟨[], []⟩ :=
  empty_stream_parses_to_simple_response 7

end hattip
